import Mathlib

/-!
Verification development for the py-ups-rs server (a DICOM UPS-RS worklist
service).  The definitions below are a shallow embedding of the Python source:

* work-item state machine and the state-change handler
  (`src/pyupsrs/domain/models/ups.py`, `domain/services/workitem_service.py`,
  `api/resources/workitems.py`),
* the work-item repository (`storage/repositories/workitem_repository.py`),
* the subscription repository and service
  (`storage/repositories/subscription_repository.py`,
  `domain/services/subscription_service.py`),
* the message-id counter and the notification fan-out
  (`websocket/notification_service.py`, `websocket/connection_manager.py`),
* the date/time matcher (`utils/dicom_query_matcher.py`).

Python dicts are embedded as association lists (insertion order preserved,
assignment replaces in place), Python sets of records as lists with
set-semantics add/discard, Python `None`-able strings as `Option String`.
-/

namespace PyUpsRs

/-! ### Work-item state machine (`ups.py`) -/

/-- The four values of `WorkItemStatus` / `ProcedureStepState`. -/
inductive ProcState where
  | scheduled
  | inProgress
  | completed
  | canceled
deriving DecidableEq, Repr

/-- Embeds `WorkItemStatus.from_string` (`ups.py`): the raising of
`ValueError` on an unknown string is modelled as `none`. -/
def WorkItemStatus.fromString (s : String) : Option ProcState :=
  if s = "SCHEDULED" then some .scheduled
  else if s = "IN PROGRESS" then some .inProgress
  else if s = "COMPLETED" then some .completed
  else if s = "CANCELED" then some .canceled
  else none

/-- A work item: the fields of the `WorkItem` dataclass (`ups.py`) that the
state-change flow reads or writes.  `state` is the dataset's
`ProcedureStepState`; `transactionUid = none` embeds Python `None`. -/
structure WorkItem where
  uid : String
  state : ProcState
  transactionUid : Option String
deriving DecidableEq, Repr

/-- Python truthiness test `not x` for a `str | None` value: true for `None`
and for the empty string. -/
def isFalsy : Option String → Bool
  | none => true
  | some s => s = ""

/-! ### Work-item repository (`workitem_repository.py`)

The module-level `local_store: dict[str, WorkItem]` is an insertion-ordered
map from UID to work item; we embed it as an association list. -/

abbrev WIStore := List (String × WorkItem)

/-- Embeds `local_store.get(uid)` / `WorkItemRepository.get_by_uid`. -/
def lookupWI : WIStore → String → Option WorkItem
  | [], _ => none
  | (k, v) :: rest, uid => if k = uid then some v else lookupWI rest uid

/-- Embeds the dict assignment `local_store[workitem.uid] = workitem`:
replaces the value at the key in place, or appends the new key. -/
def insertWI : WIStore → String → WorkItem → WIStore
  | [], uid, w => [(uid, w)]
  | (k, v) :: rest, uid, w =>
      if k = uid then (uid, w) :: rest else (k, v) :: insertWI rest uid w

/-- Embeds `WorkItemRepository.create`: it assigns unconditionally
(`local_store[workitem.uid] = workitem`) and returns the workitem.  There
is no duplicate check at this level. -/
def repoCreate (store : WIStore) (w : WorkItem) : WIStore × WorkItem :=
  (insertWI store w.uid w, w)

/-- Embeds `WorkItemsResource.on_post` (`workitems.py`): the handler checks
`get_by_uid(workitem.uid)` and answers 409 without touching the store when a
work item with that UID exists; otherwise it calls
`workitem_service.create_workitem` (which stores via `repository.create`)
and answers 201.  Notification side effects are modelled separately. -/
def onPostCreate (store : WIStore) (w : WorkItem) : Nat × WIStore :=
  if (lookupWI store w.uid).isSome then (409, store)
  else (201, (repoCreate store w).1)

/-! ### Work-item service (`workitem_service.py`) -/

/-- Embeds `WorkItemService.update_workitem_status`.  Returns the updated
store and the `success` flag of the returned tuple.  The Python code wraps a
`None` lookup result in `WorkItem(ds=None)` whose dataset has no
`ProcedureStepState`, and returns `(workitem, False)`; here that is the
`none` branch.  `workitem.transaction_uid` is assigned the supplied value
only when the new status is IN PROGRESS. -/
def updateWorkitemStatus (store : WIStore) (uid : String) (newStatus : ProcState)
    (tuid : Option String) : WIStore × Bool :=
  match lookupWI store uid with
  | none => (store, false)
  | some w =>
    if w.state ≠ .scheduled ∧ (isFalsy tuid ∨ w.transactionUid ≠ tuid) then (store, false)
    else if w.state = .completed ∨ w.state = .canceled then (store, false)
    else
      (insertWI store uid
        { w with state := newStatus,
                 transactionUid := if newStatus = .inProgress then tuid else w.transactionUid },
        true)

/-! ### State-change handler (`WorkItemStateResource.on_put`) -/

/-- Embeds `WorkItemStateResource.on_put` (`workitems.py`).  Inputs are the
extracted `ProcedureStepState` (tag 00741000) and `TransactionUID`
(tag 00081195) values, `none` when the tag is absent.  The result is the
HTTP status code and the store after the request.  The uncaught
`ValueError` from `WorkItemStatus.from_string` on an invalid state string
surfaces as the framework's 500 response. -/
def onPutState (store : WIStore) (uid : String) (pss tuid : Option String) :
    Nat × WIStore :=
  if isFalsy pss ∧ isFalsy tuid then (400, store)
  else
    match pss.bind WorkItemStatus.fromString with
    | none => (500, store)
    | some newState =>
      match lookupWI store uid with
      | none => (404, store)
      | some w =>
        if w.state = .completed ∨ w.state = .canceled then
          if newState = w.state then (410, store) else (409, store)
        else if w.state = .inProgress ∧ ¬(newState = .completed ∨ newState = .canceled) then
          (409, store)
        else if isFalsy tuid then (400, store)
        else if newState ≠ .inProgress ∧ tuid ≠ w.transactionUid then (400, store)
        else
          (if (updateWorkitemStatus store uid newState tuid).2 then 200 else 400,
            (updateWorkitemStatus store uid newState tuid).1)

/-! ### Message-id counter (`notification_service.py`) -/

/-- Embeds `get_next_message_id`: the module-level `_message_id` starts at 1;
each call first checks `if _message_id > 65534: _message_id = 1 else:
_message_id += 1` and then returns the (new) value.  The returned value
equals the new state, so the state after `n` calls is also the value
returned by the `n`-th call. -/
def getNextMessageId (s : Nat) : Nat × Nat :=
  if s > 65534 then (1, 1) else (s + 1, s + 1)

/-- The counter state after `n` calls, starting from the initial module
state `_message_id = 1`. -/
def messageIdAfter : Nat → Nat
  | 0 => 1
  | n + 1 => (getNextMessageId (messageIdAfter n)).2

/-! ### Subscriptions (`ups.py`, `subscription_repository.py`)

The `Subscription` dataclass is frozen; equality compares every field
(including `created_at` and `filter`); only the hash excludes `filter`.
The resource layer constructs each subscription with
`created_at = datetime.now()` (the dataclass default factory), so two
requests produce records with distinct `created_at`.  We embed timestamps
as naturals and the filter query dataset as its list of
(keyword, value) pairs, the form the resource builds it from. -/

/-- Reserved target UID for global subscriptions (`GLOBAL_SUBSCRIPTION_UID`). -/
def GLOBAL_UID : String := "1.2.840.10008.5.1.4.34.5"

/-- Reserved target UID for filtered subscriptions (`FILTERED_SUBSCRIPTION_UID`). -/
def FILTERED_UID : String := "1.2.840.10008.5.1.4.34.5.1"

/-- The `Subscription` frozen dataclass (`ups.py`). -/
structure Subscription where
  workitemUid : String
  aeTitle : String
  createdAt : Nat
  deletionLock : Bool
  contactUri : Option String
  filter : Option (List (String × String))
  suspended : Bool
deriving DecidableEq, Repr

/-! The module-level `_local_store: set[Subscription]` is embedded as a list
with set semantics: `add` is a no-op when an equal record is present,
`discard` removes the equal record. -/

abbrev SubStore := List Subscription

/-- Embeds `set.add`: inserts unless an equal element is already present. -/
def setAdd (s : Subscription) (store : SubStore) : SubStore :=
  if s ∈ store then store else store ++ [s]

/-- Embeds `SubscriptionRepository._discard_suspended_equivalent`: discard
every stored subscription with the same (workitem_uid, ae_title) whose
`suspended` flag is true. -/
def discardSuspendedEquivalent (s : Subscription) (store : SubStore) : SubStore :=
  store.filter fun x =>
    ¬ (x.aeTitle = s.aeTitle ∧ x.workitemUid = s.workitemUid ∧ x.suspended)

/-- Embeds `SubscriptionRepository.create`: discard suspended equivalents,
then add to the set. -/
def subRepoCreate (s : Subscription) (store : SubStore) : SubStore :=
  setAdd s (discardSuspendedEquivalent s store)

/-- Embeds `SubscriptionRepository.get_by_ae_title` (result order is the
store's iteration order). -/
def getByAeTitle (store : SubStore) (ae : String) : SubStore :=
  store.filter fun x => x.aeTitle = ae

/-- Embeds `SubscriptionRepository.delete`: remove the first stored
subscription matching the (workitem_uid, ae_title) pair, reporting whether
one was removed. -/
def subRepoDelete (store : SubStore) (uid ae : String) : SubStore × Bool :=
  match store with
  | [] => ([], false)
  | x :: rest =>
    if x.aeTitle = ae ∧ x.workitemUid = uid then (rest, true)
    else
      let r := subRepoDelete rest uid ae
      (x :: r.1, r.2)

/-- Number of stored subscriptions for one (workitem_uid, ae_title) pair. -/
def pairCount (store : SubStore) (uid ae : String) : Nat :=
  (store.filter fun x => x.workitemUid = uid ∧ x.aeTitle = ae).length

/-! ### Subscription service (`subscription_service.py`)

`SubscriptionService.suspend` looks up the subscriber's subscriptions,
takes the first one whose (ae_title, workitem_uid) matches — with no test
of its `suspended` flag — and, when found, builds a replacement
`Subscription(..., suspended=True)` (whose `created_at` defaults to the
current time, here the `now` argument), deletes the old row and creates
the new one, returning `True`; otherwise it returns `False`.  The
connection-registry unsubscribe and the initial-report queueing that
`delete_subscription` / `create_subscription` also perform do not touch
the subscription store and are modelled in the notification section. -/

/-- Embeds `SubscriptionService.suspend` at the subscription-store level. -/
def serviceSuspend (store : SubStore) (uid ae : String) (now : Nat) :
    SubStore × Bool :=
  match (getByAeTitle store ae).find? (fun x => x.aeTitle = ae ∧ x.workitemUid = uid) with
  | none => (store, false)
  | some old =>
    let replacement : Subscription :=
      { workitemUid := old.workitemUid
        aeTitle := old.aeTitle
        createdAt := now
        deletionLock := old.deletionLock
        contactUri := old.contactUri
        filter := old.filter
        suspended := true }
    let afterDelete := (subRepoDelete store old.workitemUid old.aeTitle).1
    (subRepoCreate replacement afterDelete, true)

/-! ### Connection manager and notification fan-out
(`connection_manager.py`, `notification_service.py`)

`ConnectionManager.subscriptions : dict[str, set[str]]` maps a target UID
to the set of subscriber ids; `get_subscribers` returns the stored set
itself when the key is present (`self.subscriptions.get(workitem_uid,
set())`), so the `subscribers.add(...)` calls in
`NotificationService._send_notification` mutate the registry entry in
place.  The embedding makes that mutation explicit as the updated registry
value.  Events are opaque (`NotificationService` only forwards
`message.to_json()`); the Content Matcher applied to a subscription's
filter and the looked-up work item's dataset is passed as the function
argument `matchQ` (standing for `match_query_to_dataset`). -/

abbrev Event := Nat

abbrev Reg := List (String × List String)

/-- Lookup in the `subscriptions` dict of the connection manager. -/
def lookupReg : Reg → String → Option (List String)
  | [], _ => none
  | (k, v) :: rest, uid => if k = uid then some v else lookupReg rest uid

/-- Replacement of the set stored under a key (the effect of mutating the
set object returned by `get_subscribers` in place). -/
def updateReg : Reg → String → List String → Reg
  | [], uid, v => [(uid, v)]
  | (k, w) :: rest, uid, v =>
      if k = uid then (uid, v) :: rest else (k, w) :: updateReg rest uid v

/-- Embeds `set.add` on subscriber-id sets. -/
def setAddStr (l : List String) (a : String) : List String :=
  if a ∈ l then l else l ++ [a]

/-- Embeds the loops `for subscriber in others: subscribers.add(subscriber)`. -/
def setUnionStr (base adds : List String) : List String :=
  adds.foldl setAddStr base

/-- State shared by the connection manager, the notification service and the
stores that `_send_notification` consults. -/
structure NotifState where
  registry : Reg
  connections : List String
  pending : List (String × List Event)
  subsStore : SubStore
  wiStore : WIStore
deriving Repr

/-- Embeds `NotificationService._match_on_filter`: for every filtered
subscriber, every one of its stored subscriptions whose filter is truthy
(present and nonempty) is evaluated against the looked-up work item; the
subscriber id is appended for each match.  A missing work item (no
dataset) never matches. -/
def matchOnFilter (matchQ : List (String × String) → String → Bool)
    (st : NotifState) (filteredSubs : List String) (uid : String) : List String :=
  filteredSubs.foldl
    (fun acc sid =>
      (getByAeTitle st.subsStore sid).foldl
        (fun acc2 sub =>
          let f := sub.filter.getD []
          if f ≠ [] ∧ (lookupWI st.wiStore uid).isSome ∧ matchQ f uid then acc2 ++ [sid]
          else acc2)
        acc)
    []

/-- The union the fan-out iterates over: direct subscribers of the work
item, global subscribers, and filter-matching subscribers. -/
def fanoutUnion (matchQ : List (String × String) → String → Bool)
    (st : NotifState) (uid : String) : List String :=
  let direct := (lookupReg st.registry uid).getD []
  let globalSubs := (lookupReg st.registry GLOBAL_UID).getD []
  let filteredSubs := (lookupReg st.registry FILTERED_UID).getD []
  setUnionStr (setUnionStr direct globalSubs) (matchOnFilter matchQ st filteredSubs uid)

/-- Embeds the skip test of the delivery loop: `subscription =
get_by_ae_title(subscriber_id); if subscription and
subscription[0].suspended: continue`. -/
def suspendedSkip (st : NotifState) (sid : String) : Bool :=
  match getByAeTitle st.subsStore sid with
  | [] => false
  | x :: _ => x.suspended

/-- Embeds `NotificationService._send_notification`.  Returns the new state
and the list of subscribers to whom the send succeeded
(`ConnectionManager.send_message` returns true only when a websocket is
registered for the subscriber).  Since `get_subscribers(workitem_uid)`
returns the live stored set when the key is present, the global and
matching-filtered additions are persisted into the registry entry for
`uid`; when the key is absent the additions land in a fresh local set and
the registry is unchanged.  No branch touches `pending_notifications`. -/
def sendNotification (matchQ : List (String × String) → String → Bool)
    (st : NotifState) (uid : String) (_ev : Event) : NotifState × List String :=
  let union := fanoutUnion matchQ st uid
  let registry1 :=
    if (lookupReg st.registry uid).isSome then updateReg st.registry uid union
    else st.registry
  let delivered := union.filter fun sid =>
    !(suspendedSkip st sid) && st.connections.contains sid
  ({ st with registry := registry1 }, delivered)

/-! ### Date/time matching (`dicom_query_matcher.py`)

`match_datetime` and `parse_dicom_date` work on Python strings; we embed
the values as `List Char`.  `datetime` values are embedded as normalized
(year, month, day, hour, minute, second, microsecond) tuples — Python
`datetime` comparison on such values is exactly lexicographic comparison.
`datetime.strptime` on the fixed-width strings built by
`parse_dicom_date` ("%Y%m%d", "%Y%m%d%H%M%S", optionally ".%f" with six
fraction digits) succeeds exactly when every field is all digits and in
range (month 1–12, day 1–days-in-month, hour ≤ 23, minute ≤ 59,
second ≤ 59, year ≥ 1); any failure is caught and returned as `None`. -/

/-- A Python `datetime.datetime` value as produced by `parse_dicom_date`. -/
structure PyDT where
  year : Nat
  month : Nat
  day : Nat
  hour : Nat
  minute : Nat
  second : Nat
  micro : Nat
deriving DecidableEq, Repr

/-- Python `datetime` order (lexicographic on normalized fields). -/
def dtLe (a b : PyDT) : Bool :=
  if a.year ≠ b.year then a.year < b.year
  else if a.month ≠ b.month then a.month < b.month
  else if a.day ≠ b.day then a.day < b.day
  else if a.hour ≠ b.hour then a.hour < b.hour
  else if a.minute ≠ b.minute then a.minute < b.minute
  else if a.second ≠ b.second then a.second < b.second
  else a.micro ≤ b.micro

/-- Membership of a character in a list (Python `in` on `str`). -/
def containsChar (c : Char) : List Char → Bool
  | [] => false
  | x :: xs => if x = c then true else containsChar c xs

/-- Python `str.split(sep)` for a one-character separator: splits at every
occurrence, keeping empty parts. -/
def splitOnChar (c : Char) : List Char → List (List Char)
  | [] => [[]]
  | x :: xs =>
    if x = c then [] :: splitOnChar c xs
    else
      match splitOnChar c xs with
      | h :: t => (x :: h) :: t
      | [] => [[x]]

/-- Value of an all-digit string; `none` when any character is not a digit
(which makes `strptime` raise). -/
def digitsVal? (cs : List Char) : Option Nat :=
  if cs.all Char.isDigit then
    some (cs.foldl (fun n c => n * 10 + (c.toNat - 48)) 0)
  else none

/-- Gregorian leap-year rule used by `datetime`. -/
def isLeap (y : Nat) : Bool := y % 4 = 0 ∧ (y % 100 ≠ 0 ∨ y % 400 = 0)

/-- Days in a month, as `datetime` validates the day field. -/
def daysInMonth (y m : Nat) : Nat :=
  if m = 2 then (if isLeap y then 29 else 28)
  else if m = 4 ∨ m = 6 ∨ m = 9 ∨ m = 11 then 30
  else 31

/-- Python `s.ljust(n, "0")` followed by truncation `[:n]`, as
`parse_dicom_date` applies to time, datetime and fraction parts. -/
def ljustTake (cs : List Char) (n : Nat) : List Char :=
  (cs ++ List.replicate (n - cs.length) '0').take n

/-- Parse an `%H%M%S` block of six characters with `strptime`/`datetime`
validation. -/
def parseHMS (cs : List Char) : Option (Nat × Nat × Nat) :=
  match digitsVal? (cs.take 2), digitsVal? ((cs.drop 2).take 2),
      digitsVal? (cs.drop 4) with
  | some h, some mi, some s =>
    if h ≤ 23 ∧ mi ≤ 59 ∧ s ≤ 59 then some (h, mi, s) else none
  | _, _, _ => none

/-- Parse a six-digit `%f` fraction (microseconds). -/
def parseMicro (cs : List Char) : Option Nat := digitsVal? cs

/-- Parse `strptime(date_str, "%Y%m%d")` applied to the eight-character DA
branch of `parse_dicom_date`. -/
def parseDate8 (cs : List Char) : Option PyDT :=
  match digitsVal? (cs.take 4), digitsVal? ((cs.drop 4).take 2),
      digitsVal? (cs.drop 6) with
  | some y, some mo, some d =>
    if 1 ≤ y ∧ 1 ≤ mo ∧ mo ≤ 12 ∧ 1 ≤ d ∧ d ≤ daysInMonth y mo then
      some ⟨y, mo, d, 0, 0, 0, 0⟩
    else none
  | _, _, _ => none

/-- Parse the TM branches: `strptime("19000101" ++ time_part [++ "." ++
micro])`. -/
def parseTime1900 (tp : List Char) (micro : Option (List Char)) : Option PyDT :=
  match parseHMS tp with
  | none => none
  | some (h, mi, s) =>
    match micro with
    | none => some ⟨1900, 1, 1, h, mi, s, 0⟩
    | some mcs =>
      match parseMicro mcs with
      | none => none
      | some f => some ⟨1900, 1, 1, h, mi, s, f⟩

/-- Parse the DT branch: `strptime(datetime_part [++ "." ++ micro],
"%Y%m%d%H%M%S[.%f]")` on the fourteen-character datetime part. -/
def parseDT14 (dp : List Char) (micro : Option (List Char)) : Option PyDT :=
  match digitsVal? (dp.take 4), digitsVal? ((dp.drop 4).take 2),
      digitsVal? ((dp.drop 6).take 2), parseHMS (dp.drop 8) with
  | some y, some mo, some d, some (h, mi, s) =>
    if 1 ≤ y ∧ 1 ≤ mo ∧ mo ≤ 12 ∧ 1 ≤ d ∧ d ≤ daysInMonth y mo then
      match micro with
      | none => some ⟨y, mo, d, h, mi, s, 0⟩
      | some mcs =>
        match parseMicro mcs with
        | none => none
        | some f => some ⟨y, mo, d, h, mi, s, f⟩
    else none
  | _, _, _, _ => none

/-- Embeds `parse_dicom_date`: empty or `"*"` input gives `None`; the
timezone strip `date_str.split("+")[0].split("-")[0]` keeps the prefix
before the first `+` and then the prefix before the first `-`; then the
branches on the stripped length.  Every `strptime` failure is caught and
returned as `None`. -/
def parseDicomDate (cs : List Char) : Option PyDT :=
  if cs = [] ∨ cs = ['*'] then none
  else
    let t := (cs.takeWhile (· ≠ '+')).takeWhile (· ≠ '-')
    if t.length = 8 then parseDate8 t
    else if t.length ≤ 16 ∧ containsChar '.' t then
      match splitOnChar '.' t with
      | [] => none
      | p0 :: rest =>
        let tp := ljustTake p0 6
        match rest with
        | [] => parseTime1900 tp none
        | m1 :: _ => parseTime1900 tp (some (ljustTake m1 6))
    else if t.length ≤ 6 then parseTime1900 (ljustTake t 6) none
    else
      match splitOnChar '.' t with
      | [] => none
      | p0 :: rest =>
        let dp := ljustTake p0 14
        match rest with
        | [] => parseDT14 dp none
        | m1 :: _ => parseDT14 dp (some (ljustTake m1 6))

/-- Items of the regex that `match_datetime` builds from a wildcard query:
`*` becomes `.*`, `?` becomes `.`; a literal `.` in the query also becomes
the regex metacharacter `.` because the query is not escaped.  Other
characters of DA/TM/DT values (digits, `-`, `:`) are literals. -/
inductive RItem where
  | lit (c : Char)
  | anyChar
  | manyAny
deriving DecidableEq, Repr

/-- Translation of the query into the regex `"^" + query.replace("*",
".*").replace("?", ".") + "$"`. -/
def toItems (q : List Char) : List RItem :=
  q.map fun c =>
    if c = '*' then .manyAny else if c = '?' ∨ c = '.' then .anyChar else .lit c

/-- Anchored matching of the translated pattern (`re.match` with the `^...$`
anchors). -/
def rmatch (ps : List RItem) (ds : List Char) : Bool :=
  match ps, ds with
  | [], [] => true
  | [], _ :: _ => false
  | .lit c :: ps1, d :: ds1 => c = d && rmatch ps1 ds1
  | .lit _ :: _, [] => false
  | .anyChar :: ps1, _ :: ds1 => rmatch ps1 ds1
  | .anyChar :: _, [] => false
  | .manyAny :: ps1, ds =>
    rmatch ps1 ds ||
      match ds with
      | [] => false
      | _ :: ds1 => rmatch (.manyAny :: ps1) ds1
termination_by ps.length + ds.length

/-- Embeds `match_datetime` on the character lists of the two strings.  The
branch order follows the source: empty/universal query, wildcard regex,
range (only when the split on `-` has exactly two parts and at least one
side parses; otherwise control falls through), then timestamp equality
with a string-equality fallback. -/
def matchDatetimeL (q r : List Char) : Bool :=
  if q = [] ∨ q = ['*'] then true
  else if containsChar '*' q ∨ containsChar '?' q then rmatch (toItems q) r
  else
    let direct :=
      match parseDicomDate q, parseDicomDate r with
      | some a, some b => a = b
      | _, _ => q = r
    if containsChar '-' q then
      match splitOnChar '-' q with
      | [s, e] =>
        match parseDicomDate r with
        | none => false
        | some d =>
          match parseDicomDate s, parseDicomDate e with
          | some a, some b => dtLe a d && dtLe d b
          | some a, none => dtLe a d
          | none, some b => dtLe d b
          | none, none => direct
      | _ => direct
    else direct

/-- Embeds `match_datetime(query_datetime, dataset_datetime)`. -/
def matchDatetime (q r : String) : Bool := matchDatetimeL q.data r.data

/-- Modelled from the claim's words (for comparison with the code): the
range interpretation of a `start-end` query value — the record matches iff
`start ≤ record ≤ end` after parsing, where an absent (empty) side of the
range is always satisfied and an unparseable record value never matches. -/
def claimRangeMatch (s e rd : List Char) : Bool :=
  match parseDicomDate rd with
  | none => false
  | some d =>
    (match parseDicomDate s with
     | none => true
     | some a => dtLe a d) &&
    (match parseDicomDate e with
     | none => true
     | some b => dtLe d b)

/-! ### Concrete instances used in witnesses and counterexamples -/

/-- A work item as stored after creation with state SCHEDULED. -/
def wiA : WorkItem := ⟨"1.2.3.4", .scheduled, none⟩

/-- A different work item record carrying the same UID. -/
def wiB : WorkItem := ⟨"1.2.3.4", .inProgress, some "T1"⟩

/-- A claimed (IN PROGRESS) work item whose stored transaction UID is "T". -/
def wiP : WorkItem := ⟨"u", .inProgress, some "T"⟩

/-- A non-suspended subscription for (1.2.3.4, AE1) created at tick 0. -/
def subA : Subscription := ⟨"1.2.3.4", "AE1", 0, false, none, none, false⟩

/-- The same caller parameters as `subA`, auto-stamped at tick 1. -/
def subB : Subscription := ⟨"1.2.3.4", "AE1", 1, false, none, none, false⟩

/-- A suspended subscription for (1.2.3.4, AE1) created at tick 0. -/
def subS0 : Subscription := ⟨"1.2.3.4", "AE1", 0, false, none, none, true⟩

/-- A suspended subscription for the same pair created at tick 1. -/
def subS1 : Subscription := ⟨"1.2.3.4", "AE1", 1, false, none, none, true⟩

/-- A non-suspended GLOBAL subscription for subscriber AE6. -/
def subG : Subscription := ⟨GLOBAL_UID, "AE6", 0, false, none, none, false⟩

/-- System state of the offline-queueing scenario: AE6 holds a GLOBAL
subscription (registered in the connection manager's index) but has no
open websocket; work item W8 exists; AE6's pending queue is empty. -/
def st6 : NotifState :=
  { registry := [(GLOBAL_UID, ["AE6"])]
    connections := []
    pending := [("AE6", [])]
    subsStore := [subG]
    wiStore := [("W8", ⟨"W8", .scheduled, none⟩)] }

/-- The same scenario with AE6's push channel open. -/
def st7 : NotifState := { st6 with connections := ["AE6"] }

/-- A state where work item W9 has a direct-subscriber registry entry and
AE2 is a connected global subscriber. -/
def st8 : NotifState :=
  { registry := [("W9", ["AE1"]), (GLOBAL_UID, ["AE2"])]
    connections := ["AE2"]
    pending := []
    subsStore := []
    wiStore := [] }

/-! ### Helper lemmas -/

theorem messageIdAfter_le (n : Nat) (h : n ≤ 65534) : messageIdAfter n = n + 1 := by
  induction n with
  | zero => rfl
  | succ m ih =>
    have hm : m ≤ 65534 := Nat.le_of_succ_le h
    have hmh : messageIdAfter m = m + 1 := ih hm
    simp only [messageIdAfter, hmh, getNextMessageId]
    have hng : ¬ (m + 1 > 65534) := by omega
    simp [hng]

theorem messageIdAfter_bounds (n : Nat) :
    1 ≤ messageIdAfter n ∧ messageIdAfter n ≤ 65535 := by
  induction n with
  | zero => simp [messageIdAfter]
  | succ m ih =>
    simp only [messageIdAfter, getNextMessageId]
    by_cases h : messageIdAfter m > 65534
    · simp [h]
    · simp [h]; omega

theorem lookupWI_insertWI (st : WIStore) (k : String) (w : WorkItem) (u : String) :
    lookupWI (insertWI st k w) u = if u = k then some w else lookupWI st u := by
  induction st with
  | nil =>
    by_cases h : u = k
    · subst h; simp [insertWI, lookupWI]
    · have h2 : ¬ (k = u) := fun hh => h hh.symm
      simp [insertWI, lookupWI, h, h2]
  | cons hd tl ih =>
    obtain ⟨k0, v0⟩ := hd
    by_cases hk : k0 = k
    · subst hk
      by_cases hu : u = k0
      · subst hu; simp [insertWI, lookupWI]
      · have h2 : ¬ (k0 = u) := fun hh => hu hh.symm
        simp [insertWI, lookupWI, h2, hu]
    · by_cases hu : u = k0
      · subst hu
        simp [insertWI, lookupWI, hk]
      · have h2 : ¬ (k0 = u) := fun hh => hu hh.symm
        simp [insertWI, lookupWI, hk, h2, hu, ih]

theorem lookupReg_updateReg (r : Reg) (k : String) (v : List String) (u : String) :
    lookupReg (updateReg r k v) u = if u = k then some v else lookupReg r u := by
  induction r with
  | nil =>
    by_cases h : u = k
    · subst h; simp [updateReg, lookupReg]
    · have h2 : ¬ (k = u) := fun hh => h hh.symm
      simp [updateReg, lookupReg, h, h2]
  | cons hd tl ih =>
    obtain ⟨k0, v0⟩ := hd
    by_cases hk : k0 = k
    · subst hk
      by_cases hu : u = k0
      · subst hu; simp [updateReg, lookupReg]
      · have h2 : ¬ (k0 = u) := fun hh => hu hh.symm
        simp [updateReg, lookupReg, h2, hu]
    · by_cases hu : u = k0
      · subst hu
        simp [updateReg, lookupReg, hk]
      · have h2 : ¬ (k0 = u) := fun hh => hu hh.symm
        simp [updateReg, lookupReg, hk, h2, hu, ih]

theorem mem_setAddStr (l : List String) (a b : String) (h : b ∈ l) :
    b ∈ setAddStr l a := by
  unfold setAddStr
  by_cases ha : a ∈ l
  · simp [ha, h]
  · simp [ha]; exact Or.inl h

theorem mem_setAddStr_self (l : List String) (a : String) : a ∈ setAddStr l a := by
  unfold setAddStr
  by_cases ha : a ∈ l
  · simp [ha]
  · simp [ha]

theorem mem_setUnionStr_left (base adds : List String) (b : String) (h : b ∈ base) :
    b ∈ setUnionStr base adds := by
  induction adds generalizing base with
  | nil => exact h
  | cons a rest ih =>
    simp only [setUnionStr, List.foldl] at *
    exact ih (setAddStr base a) (mem_setAddStr base a b h)

theorem mem_setUnionStr_right (base adds : List String) (b : String) (h : b ∈ adds) :
    b ∈ setUnionStr base adds := by
  induction adds generalizing base with
  | nil => cases h
  | cons a rest ih =>
    simp only [setUnionStr, List.foldl] at *
    rcases List.mem_cons.mp h with h1 | h2
    · subst h1
      exact mem_setUnionStr_left (setAddStr base b) rest b (mem_setAddStr_self base b)
    · exact ih (setAddStr base a) h2

theorem mem_subRepoCreate_self (s : Subscription) (st : SubStore) :
    s ∈ subRepoCreate s st := by
  unfold subRepoCreate setAdd
  by_cases h : s ∈ discardSuspendedEquivalent s st
  · simp [h]
  · simp [h]

theorem fromString_ne_empty (s : String) (Y : ProcState)
    (h : WorkItemStatus.fromString s = some Y) : ¬ (s = "") := by
  intro he
  subst he
  simp [WorkItemStatus.fromString] at h

theorem splitOnChar_ne_nil (c : Char) (l : List Char) : splitOnChar c l ≠ [] := by
  cases l with
  | nil => simp [splitOnChar]
  | cons x xs =>
    simp only [splitOnChar]
    by_cases h : x = c
    · simp [h]
    · simp only [if_neg h]
      cases hsp : splitOnChar c xs with
      | nil => simp
      | cons a b => simp

theorem contains_of_splitOnChar_two (c : Char) (l : List Char) (s e : List Char)
    (h : splitOnChar c l = [s, e]) : containsChar c l = true := by
  induction l generalizing s with
  | nil => simp [splitOnChar] at h
  | cons x xs ih =>
    simp only [splitOnChar] at h
    by_cases hx : x = c
    · simp [containsChar, hx]
    · simp only [if_neg hx] at h
      simp only [containsChar, if_neg hx]
      cases hsp : splitOnChar c xs with
      | nil => exact absurd hsp (splitOnChar_ne_nil c xs)
      | cons a b =>
        rw [hsp] at h
        have hb : b = [e] := by
          have := congrArg List.tail h
          simpa using this
        subst hb
        have ha : (x :: a) = s := by
          have := congrArg List.head? h
          simpa using this
        exact ih a (by rw [hsp])

theorem updateWorkitemStatus_false_store (store : WIStore) (uid : String)
    (ns : ProcState) (t : Option String)
    (h : (updateWorkitemStatus store uid ns t).2 = false) :
    (updateWorkitemStatus store uid ns t).1 = store := by
  rcases hres : updateWorkitemStatus store uid ns t with ⟨st2, ok⟩
  have hok : ok = false := by rw [hres] at h; simpa using h
  subst hok
  show st2 = store
  unfold updateWorkitemStatus at hres
  split at hres
  · injection hres with h1 _; exact h1.symm
  · split at hres
    · injection hres with h1 _; exact h1.symm
    · split at hres
      · injection hres with h1 _; exact h1.symm
      · injection hres with _ h2; exact absurd h2 (by decide)

theorem updateWorkitemStatus_true_shape (store : WIStore) (uid : String)
    (ns : ProcState) (t : Option String) (w : WorkItem)
    (hw : lookupWI store uid = some w)
    (htrue : (updateWorkitemStatus store uid ns t).2 = true) :
    (updateWorkitemStatus store uid ns t).1 =
      insertWI store uid
        { w with state := ns,
                 transactionUid := if ns = .inProgress then t else w.transactionUid } ∧
    (w.state ≠ .scheduled → isFalsy t = false ∧ w.transactionUid = t) := by
  rcases hres : updateWorkitemStatus store uid ns t with ⟨st2, ok⟩
  have hok : ok = true := by rw [hres] at htrue; simpa using htrue
  subst hok
  unfold updateWorkitemStatus at hres
  simp only [hw] at hres
  split at hres
  · injection hres with _ h2; exact absurd h2 (by decide)
  · split at hres
    · injection hres with _ h2; exact absurd h2 (by decide)
    · next h1 _h2 =>
      injection hres with h3 _
      refine ⟨h3.symm, ?_⟩
      intro hsch
      push_neg at h1
      have h4 := h1 hsch
      exact ⟨by simpa using h4.1, h4.2⟩

theorem onPutState_shape (store : WIStore) (uid : String) (pss tuid : Option String) :
    ((onPutState store uid pss tuid).1 ≠ 200 ∧ (onPutState store uid pss tuid).2 = store) ∨
    (∃ ns, pss.bind WorkItemStatus.fromString = some ns ∧
      (updateWorkitemStatus store uid ns tuid).2 = true ∧
      (onPutState store uid pss tuid).2 = (updateWorkitemStatus store uid ns tuid).1 ∧
      (onPutState store uid pss tuid).1 = 200) := by
  rcases hres : onPutState store uid pss tuid with ⟨code, st2⟩
  unfold onPutState at hres
  split at hres
  · injection hres with h1 h2; left; exact ⟨h1 ▸ (by omega), h2.symm⟩
  · split at hres
    · injection hres with h1 h2; left; exact ⟨h1 ▸ (by omega), h2.symm⟩
    · next ns hns =>
      split at hres
      · injection hres with h1 h2; left; exact ⟨h1 ▸ (by omega), h2.symm⟩
      · next w hw =>
        split at hres
        · split at hres
          · injection hres with h1 h2; left; exact ⟨h1 ▸ (by omega), h2.symm⟩
          · injection hres with h1 h2; left; exact ⟨h1 ▸ (by omega), h2.symm⟩
        · split at hres
          · injection hres with h1 h2; left; exact ⟨h1 ▸ (by omega), h2.symm⟩
          · split at hres
            · injection hres with h1 h2; left; exact ⟨h1 ▸ (by omega), h2.symm⟩
            · split at hres
              · injection hres with h1 h2; left; exact ⟨h1 ▸ (by omega), h2.symm⟩
              · split at hres
                · next hup =>
                  injection hres with h1 h2
                  right
                  exact ⟨ns, hns, hup, h2.symm, h1.symm⟩
                · next hup =>
                  injection hres with h1 h2
                  left
                  have hupf : (updateWorkitemStatus store uid ns tuid).2 = false := by
                    simpa using hup
                  have hst := updateWorkitemStatus_false_store store uid ns tuid hupf
                  refine ⟨h1 ▸ (by omega), ?_⟩
                  rw [← h2, hst]

/-! ### Claim theorems -/

/-- C5 (counterexample): the claim that every value returned by the
message-id counter lies in [1, 65534] and that the call after the one
returning 65534 returns 1 is false at a concrete run: starting from the
initial state, call number 65533 returns 65534 and the immediately
following call returns 65535 — outside [1, 65534] and different from 1. -/
theorem C5_counterexample :
    messageIdAfter 65533 = 65534 ∧ messageIdAfter 65534 = 65535 ∧
    ¬ (messageIdAfter 65534 ≤ 65534) ∧ messageIdAfter 65534 ≠ 1 := by
  have h1 := messageIdAfter_le 65533 (by omega)
  have h2 := messageIdAfter_le 65534 (by omega)
  refine ⟨h1, h2, ?_, ?_⟩ <;> omega

/-- C5 (amended): every value returned by `get_next_message_id` lies in
[1, 65535]; while the state is at most 65534 successive values increase by
one (the value of call n is n + 1, so the first returned value is 2); the
call immediately after the one that returned 65535 returns 1. -/
theorem C5_message_id_range_and_wrap (n : Nat) (_h1 : 1 ≤ n) :
    (1 ≤ messageIdAfter n ∧ messageIdAfter n ≤ 65535) ∧
    (n ≤ 65534 → messageIdAfter n = n + 1) ∧
    (messageIdAfter n ≤ 65534 → messageIdAfter (n + 1) = messageIdAfter n + 1) ∧
    (messageIdAfter n = 65535 → messageIdAfter (n + 1) = 1) := by
  refine ⟨messageIdAfter_bounds n, fun h => messageIdAfter_le n h, ?_, ?_⟩
  · intro h
    have hng : ¬ (messageIdAfter n > 65534) := by omega
    simp [messageIdAfter, getNextMessageId, hng]
  · intro h
    have hg : messageIdAfter n > 65534 := by omega
    simp [messageIdAfter, getNextMessageId, hg]

/-- C5 (witness): the amended statement applied at the third call. -/
theorem C5_witness :
    (1 ≤ messageIdAfter 3 ∧ messageIdAfter 3 ≤ 65535) ∧ messageIdAfter 3 = 4 := by
  have h := C5_message_id_range_and_wrap 3 (by omega)
  exact ⟨h.1, h.2.1 (by omega)⟩

/-- C4 (counterexample): two successive `create(sub)` calls with identical
caller parameters (same target, subscriber, deletion lock, filter,
suspended flag) but the distinct auto-stamped `created_at` values that two
requests produce leave TWO subscriptions for the pair, refuting the
at-most-one-per-pair invariant and the stated idempotence. -/
theorem C4_counterexample :
    subA.workitemUid = subB.workitemUid ∧ subA.aeTitle = subB.aeTitle ∧
    subA.deletionLock = subB.deletionLock ∧ subA.filter = subB.filter ∧
    subA.suspended = subB.suspended ∧
    pairCount (subRepoCreate subB (subRepoCreate subA [])) "1.2.3.4" "AE1" = 2 := by
  decide

/-- C4 (amended): subscription identity is the whole frozen record
(`created_at` included).  `create` is idempotent for the identical record:
creating the same record twice leaves the store exactly as one create
does, and creating it in an empty store leaves exactly one subscription
for its (target, subscriber) pair.  Records that differ only in
`created_at` accumulate (see the counterexample). -/
theorem C4_create_idempotent_same_record (s : Subscription) (st : SubStore) :
    subRepoCreate s (subRepoCreate s st) = subRepoCreate s st ∧
    pairCount (subRepoCreate s []) s.workitemUid s.aeTitle = 1 := by
  constructor
  · unfold subRepoCreate
    set p : Subscription → Bool :=
      fun x => decide ¬ (x.aeTitle = s.aeTitle ∧ x.workitemUid = s.workitemUid ∧ x.suspended)
      with hp
    have hfilter : ∀ l : SubStore, discardSuspendedEquivalent s l = l.filter p := by
      intro l; rfl
    by_cases hmem : s ∈ discardSuspendedEquivalent s st
    · have h1 : setAdd s (discardSuspendedEquivalent s st) = discardSuspendedEquivalent s st := by
        simp [setAdd, hmem]
      rw [h1]
      have h2 : discardSuspendedEquivalent s (discardSuspendedEquivalent s st) =
          discardSuspendedEquivalent s st := by
        rw [hfilter, hfilter, List.filter_filter]
        simp
      rw [h2]
      simp [setAdd, hmem]
    · have h1 : setAdd s (discardSuspendedEquivalent s st) =
          discardSuspendedEquivalent s st ++ [s] := by
        simp [setAdd, hmem]
      rw [h1]
      have hidem : discardSuspendedEquivalent s (discardSuspendedEquivalent s st) =
          discardSuspendedEquivalent s st := by
        rw [hfilter, hfilter, List.filter_filter]
        simp
      by_cases hsusp : s.suspended
      · have h2 : discardSuspendedEquivalent s (discardSuspendedEquivalent s st ++ [s]) =
            discardSuspendedEquivalent s st := by
          rw [hfilter, List.filter_append, ← hfilter, hidem]
          simp [hp, hsusp]
        rw [h2]
        simp [setAdd, hmem]
      · have h2 : discardSuspendedEquivalent s (discardSuspendedEquivalent s st ++ [s]) =
            discardSuspendedEquivalent s st ++ [s] := by
          rw [hfilter, List.filter_append, ← hfilter, hidem]
          simp [hp, hsusp]
        rw [h2]
        have : s ∈ discardSuspendedEquivalent s st ++ [s] := by simp
        simp [setAdd, this]
  · simp [subRepoCreate, discardSuspendedEquivalent, setAdd, pairCount, List.filter]

/-- C8 (counterexample): when the created subscription itself carries
`suspended=true` (exactly what the suspend flow does), a suspended row for
the pair remains in the store after the create, refuting "no suspended row
remains for that pair". -/
theorem C8_counterexample :
    subS1 ∈ subRepoCreate subS1 [subS0] ∧ subS1.suspended = true ∧
    subS1.workitemUid = "1.2.3.4" ∧ subS1.aeTitle = "AE1" ∧
    subS0 ∈ [subS0] ∧ subS0.suspended = true := by
  decide

/-- C8 (amended): `create(sub)` removes every pre-existing suspended
subscription of the same (target, subscriber) pair and inserts `sub`;
after the create, the only suspended row that can remain for the pair is
the newly inserted subscription itself (none at all when `sub` is not
suspended). -/
theorem C8_create_purges_suspended (s : Subscription) (st : SubStore) :
    s ∈ subRepoCreate s st ∧
    ∀ x : Subscription, x.workitemUid = s.workitemUid → x.aeTitle = s.aeTitle →
      x.suspended = true → x ≠ s → x ∉ subRepoCreate s st := by
  refine ⟨mem_subRepoCreate_self s st, ?_⟩
  intro x hu ha hs hne hmem
  unfold subRepoCreate setAdd at hmem
  have hx : x ∈ discardSuspendedEquivalent s st := by
    by_cases h : s ∈ discardSuspendedEquivalent s st
    · simpa [h] using hmem
    · rcases (by simpa [h] using hmem :
          x ∈ discardSuspendedEquivalent s st ∨ x = s) with h1 | h2
      · exact h1
      · exact absurd h2 hne
  have := List.of_mem_filter hx
  simp [ha, hu, hs] at this

/-- C8 (witness): the amended statement at a concrete input — the
pre-existing suspended row `subS0` is gone after creating `subS1` for the
same pair, while `subS1` itself is present. -/
theorem C8_witness :
    subS1 ∈ subRepoCreate subS1 [subS0] ∧ subS0 ∉ subRepoCreate subS1 [subS0] := by
  have h := C8_create_purges_suspended subS1 [subS0]
  exact ⟨h.1, h.2 subS0 (by decide) (by decide) (by decide) (by decide)⟩

/-- C7 (counterexample): when the only stored row for the pair is already
suspended, `suspend` still returns true (the matching scan does not test
the `suspended` flag) and replaces the row with a fresh suspended copy,
refuting the claim that it returns false. -/
theorem C7_counterexample :
    subS0.suspended = true ∧
    serviceSuspend [subS0] "1.2.3.4" "AE1" 5 =
      ([⟨"1.2.3.4", "AE1", 5, false, none, none, true⟩], true) := by
  decide

/-- C7 (amended): `suspend(target_uid, subscriber_id)` returns false only
when the store holds NO subscription at all for the pair (suspended or
not); when any matching row exists — the first one in store order,
regardless of its `suspended` flag — it is replaced by a record with the
same target, subscriber, deletion lock, contact URI and filter, with
`suspended=true` and a freshly stamped `created_at`, and the call returns
true. -/
theorem C7_suspend_any_match (st : SubStore) (uid ae : String) (now : Nat) :
    ((∀ x ∈ st, ¬ (x.workitemUid = uid ∧ x.aeTitle = ae)) →
      serviceSuspend st uid ae now = (st, false)) ∧
    (∀ old : Subscription,
      (getByAeTitle st ae).find?
          (fun x => decide (x.aeTitle = ae ∧ x.workitemUid = uid)) = some old →
      (serviceSuspend st uid ae now).2 = true ∧
      ({ old with createdAt := now, suspended := true } : Subscription)
        ∈ (serviceSuspend st uid ae now).1) := by
  constructor
  · intro hno
    have hfind : (getByAeTitle st ae).find?
        (fun x => decide (x.aeTitle = ae ∧ x.workitemUid = uid)) = none := by
      rw [List.find?_eq_none]
      intro x hx
      have hxs : x ∈ st := List.mem_of_mem_filter hx
      have := hno x hxs
      simp only [decide_eq_true_eq]
      intro hcon
      exact this ⟨hcon.2, hcon.1⟩
    unfold serviceSuspend
    rw [hfind]
  · intro old hfound
    have heq : serviceSuspend st uid ae now =
        (subRepoCreate
          { workitemUid := old.workitemUid, aeTitle := old.aeTitle, createdAt := now,
            deletionLock := old.deletionLock, contactUri := old.contactUri,
            filter := old.filter, suspended := true }
          (subRepoDelete st old.workitemUid old.aeTitle).1, true) := by
      unfold serviceSuspend
      rw [hfound]
    rw [heq]
    exact ⟨rfl, mem_subRepoCreate_self _ _⟩

/-- C7 (witness): suspending the pair of the non-suspended row `subA`
returns true and stores the suspended replacement. -/
theorem C7_witness :
    (serviceSuspend [subA] "1.2.3.4" "AE1" 9).2 = true ∧
    (⟨"1.2.3.4", "AE1", 9, false, none, none, true⟩ : Subscription)
      ∈ (serviceSuspend [subA] "1.2.3.4" "AE1" 9).1 := by
  have h := (C7_suspend_any_match [subA] "1.2.3.4" "AE1" 9).2 subA (by decide)
  exact ⟨h.1, h.2⟩

/-- C6 (counterexample): the Work-Item Store's `create` does not fail on a
duplicate UID — it overwrites the stored record and returns the new one,
so the previously stored record is NOT left unchanged at the store level
(the duplicate check lives in the POST handler). -/
theorem C6_counterexample :
    (repoCreate [("1.2.3.4", wiA)] wiB).1 = [("1.2.3.4", wiB)] ∧
    (repoCreate [("1.2.3.4", wiA)] wiB).2 = wiB ∧
    wiB ≠ wiA ∧ wiB.uid = "1.2.3.4" ∧ wiA.uid = "1.2.3.4" := by
  decide

/-- C6 (amended): the duplicate check is enforced by the create handler
(`POST /workitems`), not by the store: when a record with the UID is
already present the handler answers 409 and leaves the store unchanged;
when the UID is absent it answers 201, the record is inserted and
retrievable, and no other UID's entry changes.  The store-level `create`
itself overwrites unconditionally (see the counterexample). -/
theorem C6_handler_duplicate_check (st : WIStore) (w : WorkItem) :
    ((lookupWI st w.uid).isSome → onPostCreate st w = (409, st)) ∧
    (lookupWI st w.uid = none →
      (onPostCreate st w).1 = 201 ∧
      lookupWI (onPostCreate st w).2 w.uid = some w ∧
      ∀ u : String, u ≠ w.uid → lookupWI (onPostCreate st w).2 u = lookupWI st u) := by
  constructor
  · intro h
    simp [onPostCreate, h]
  · intro h
    refine ⟨by simp [onPostCreate, h], ?_, ?_⟩
    · simp [onPostCreate, h, repoCreate, lookupWI_insertWI]
    · intro u hu
      simp [onPostCreate, h, repoCreate, lookupWI_insertWI, hu]

/-- C6 (witness): the amended statement at concrete inputs — posting a
record with an already present UID answers 409 and leaves the store
unchanged; posting into an empty store answers 201 and stores the record. -/
theorem C6_witness :
    onPostCreate [("1.2.3.4", wiA)] wiB = (409, [("1.2.3.4", wiA)]) ∧
    (onPostCreate [] wiA).1 = 201 ∧
    lookupWI (onPostCreate [] wiA).2 "1.2.3.4" = some wiA := by
  refine ⟨(C6_handler_duplicate_check [("1.2.3.4", wiA)] wiB).1 (by decide), ?_, ?_⟩
  · exact ((C6_handler_duplicate_check [] wiA).2 (by decide)).1
  · exact ((C6_handler_duplicate_check [] wiA).2 (by decide)).2.1

theorem updateWorkitemStatus_true_lookup (store : WIStore) (uid : String)
    (ns : ProcState) (t : Option String)
    (h : (updateWorkitemStatus store uid ns t).2 = true) :
    ∃ w, lookupWI store uid = some w := by
  cases hw : lookupWI store uid with
  | none =>
    unfold updateWorkitemStatus at h
    rw [hw] at h
    simp at h
  | some w => exact ⟨w, rfl⟩

/-- C2: a state-change request that moves a work item into a terminal state
(COMPLETED or CANCELED) and answers 200 leaves the item stored in that
state; from then on, any state-change request for that item requesting the
same terminal state answers 410, any request for a different state answers
409, and in both cases the store is unchanged; requests addressed to other
UIDs never touch this item's entry, so a COMPLETED or CANCELED work item's
state never changes again. -/
theorem C2_terminal_state_locked (store : WIStore) (uid ps : String)
    (tuid : Option String) (X : ProcState)
    (hX : WorkItemStatus.fromString ps = some X)
    (hterm : X = .completed ∨ X = .canceled)
    (h200 : (onPutState store uid (some ps) tuid).1 = 200) :
    (∃ w1, lookupWI (onPutState store uid (some ps) tuid).2 uid = some w1 ∧
      w1.state = X) ∧
    (∀ (s2 : WIStore) (w2 : WorkItem), lookupWI s2 uid = some w2 → w2.state = X →
      ∀ (ps2 : String) (t2 : Option String) (Y : ProcState),
        WorkItemStatus.fromString ps2 = some Y →
        onPutState s2 uid (some ps2) t2 = ((if Y = X then 410 else 409), s2)) ∧
    (∀ (s2 : WIStore) (uid2 : String) (p2 t2 : Option String), uid2 ≠ uid →
      lookupWI (onPutState s2 uid2 p2 t2).2 uid = lookupWI s2 uid) := by
  refine ⟨?_, ?_, ?_⟩
  · rcases onPutState_shape store uid (some ps) tuid with ⟨hno, _⟩ | ⟨ns, hns, hup, heq2, _⟩
    · exact absurd h200 hno
    · have hnsX : ns = X := by
        have hb : WorkItemStatus.fromString ps = some ns := hns
        rw [hX] at hb
        exact (Option.some.injEq .. ▸ hb).symm
      rcases updateWorkitemStatus_true_lookup store uid ns tuid hup with ⟨w, hw⟩
      have hsh := updateWorkitemStatus_true_shape store uid ns tuid w hw hup
      refine ⟨⟨w.uid, ns, if ns = .inProgress then tuid else w.transactionUid⟩, ?_, hnsX⟩
      rw [heq2, hsh.1, lookupWI_insertWI]
      simp
  · intro s2 w2 hw2 hst2 ps2 t2 Y hY2
    have hne : ¬ (ps2 = "") := fromString_ne_empty ps2 Y hY2
    have h0 : ¬ (isFalsy (some ps2) = true ∧ isFalsy t2 = true) := by
      intro hcon
      exact hne (by simpa [isFalsy] using hcon.1)
    have hbind : (some ps2).bind WorkItemStatus.fromString = some Y := hY2
    unfold onPutState
    rw [if_neg h0]
    simp only [hbind, hw2]
    rw [if_pos (show w2.state = .completed ∨ w2.state = .canceled from hst2 ▸ hterm)]
    rw [hst2]
    by_cases hXY : Y = X
    · rw [if_pos hXY, if_pos hXY]
    · rw [if_neg hXY, if_neg hXY]
  · intro s2 uid2 p2 t2 hne
    rcases onPutState_shape s2 uid2 p2 t2 with ⟨_, hstore⟩ | ⟨ns, _, hup, heq2, _⟩
    · rw [hstore]
    · rcases updateWorkitemStatus_true_lookup s2 uid2 ns t2 hup with ⟨w, hw⟩
      have hsh := updateWorkitemStatus_true_shape s2 uid2 ns t2 w hw hup
      rw [heq2, hsh.1, lookupWI_insertWI]
      rw [if_neg (fun h => hne h.symm)]

/-- C2 (witness): completing a claimed IN PROGRESS item with the correct
transaction UID answers 200 and stores COMPLETED; a repeat of the same
request then answers 410 with the store unchanged. -/
theorem C2_witness :
    (∃ w1, lookupWI (onPutState [("u", wiP)] "u" (some "COMPLETED") (some "T")).2 "u" =
        some w1 ∧ w1.state = .completed) ∧
    onPutState (onPutState [("u", wiP)] "u" (some "COMPLETED") (some "T")).2 "u"
        (some "COMPLETED") (some "T") =
      (410, (onPutState [("u", wiP)] "u" (some "COMPLETED") (some "T")).2) := by
  have h := C2_terminal_state_locked [("u", wiP)] "u" "COMPLETED" (some "T") .completed
    (by decide) (Or.inl rfl) (by decide)
  refine ⟨h.1, ?_⟩
  obtain ⟨w1, hw1, hst⟩ := h.1
  have h2 := h.2.1 _ w1 hw1 hst "COMPLETED" (some "T") .completed (by decide)
  simpa using h2

/-- C3 (counterexample): for an IN PROGRESS work item, a state-change
request with a missing transaction UID does NOT always answer 400: when
the requested state is SCHEDULED the handler answers 409 (the
state-compatibility check fires before the transaction-UID checks). -/
theorem C3_counterexample :
    wiP.state = .inProgress ∧
    onPutState [("u", wiP)] "u" (some "SCHEDULED") none = (409, [("u", wiP)]) ∧
    (409 : Nat) ≠ 400 := by
  decide

/-- C3 (amended): for a work item in IN PROGRESS, a state-change request
changes the stored state only if it supplies the stored transaction UID
(non-empty and equal); when the requested state is COMPLETED or CANCELED,
a missing transaction UID or a mismatched one answers 400 and leaves the
store (state and transaction UID) unchanged; a request for any other
state answers 409, also leaving the store unchanged. -/
theorem C3_transaction_lock (st : WIStore) (uid : String) (w : WorkItem)
    (ps : String) (Y : ProcState) (tuid : Option String)
    (hw : lookupWI st uid = some w) (hip : w.state = .inProgress)
    (hY : WorkItemStatus.fromString ps = some Y) :
    (∀ w1, lookupWI (onPutState st uid (some ps) tuid).2 uid = some w1 →
      w1.state ≠ .inProgress → isFalsy tuid = false ∧ w.transactionUid = tuid) ∧
    ((Y = .completed ∨ Y = .canceled) → isFalsy tuid = true →
      onPutState st uid (some ps) tuid = (400, st)) ∧
    ((Y = .completed ∨ Y = .canceled) → isFalsy tuid = false →
      tuid ≠ w.transactionUid → onPutState st uid (some ps) tuid = (400, st)) ∧
    (¬ (Y = .completed ∨ Y = .canceled) →
      onPutState st uid (some ps) tuid = (409, st)) := by
  have hne : ¬ (ps = "") := fromString_ne_empty ps Y hY
  have h0 : ¬ (isFalsy (some ps) = true ∧ isFalsy tuid = true) := by
    intro hcon
    exact hne (by simpa [isFalsy] using hcon.1)
  have hbind : (some ps).bind WorkItemStatus.fromString = some Y := hY
  have hnoterm : ¬ (w.state = .completed ∨ w.state = .canceled) := by
    rw [hip]; decide
  refine ⟨?_, ?_, ?_, ?_⟩
  · intro w1 hw1 hch
    rcases onPutState_shape st uid (some ps) tuid with ⟨_, hstore⟩ | ⟨ns, _, hup, _, _⟩
    · rw [hstore, hw] at hw1
      have : w = w1 := Option.some.injEq .. ▸ hw1
      exact absurd (this ▸ hip) hch
    · have hsh := updateWorkitemStatus_true_shape st uid ns tuid w hw hup
      have hcred := hsh.2 (by rw [hip]; decide)
      exact hcred
  · intro hYterm hfal
    unfold onPutState
    rw [if_neg h0]
    simp only [hbind, hw]
    rw [if_neg hnoterm]
    rw [if_neg (show ¬ (w.state = .inProgress ∧
      ¬ (Y = .completed ∨ Y = .canceled)) from fun hcon => hcon.2 hYterm)]
    rw [if_pos hfal]
  · intro hYterm hfal hmis
    unfold onPutState
    rw [if_neg h0]
    simp only [hbind, hw]
    rw [if_neg hnoterm]
    rw [if_neg (show ¬ (w.state = .inProgress ∧
      ¬ (Y = .completed ∨ Y = .canceled)) from fun hcon => hcon.2 hYterm)]
    rw [if_neg (show ¬ (isFalsy tuid = true) by simp [hfal])]
    rw [if_pos (show Y ≠ .inProgress ∧ tuid ≠ w.transactionUid from
      ⟨by rcases hYterm with h | h <;> rw [h] <;> decide, hmis⟩)]
  · intro hYnot
    unfold onPutState
    rw [if_neg h0]
    simp only [hbind, hw]
    rw [if_neg hnoterm]
    rw [if_pos (show w.state = .inProgress ∧
      ¬ (Y = .completed ∨ Y = .canceled) from ⟨hip, hYnot⟩)]

/-- C3 (witness): the amended statement at concrete inputs — for the
claimed item `wiP`, requesting COMPLETED with no transaction UID answers
400, and with a wrong transaction UID answers 400, leaving the store
unchanged both times. -/
theorem C3_witness :
    onPutState [("u", wiP)] "u" (some "COMPLETED") none = (400, [("u", wiP)]) ∧
    onPutState [("u", wiP)] "u" (some "COMPLETED") (some "WRONG") =
      (400, [("u", wiP)]) := by
  have h1 := C3_transaction_lock [("u", wiP)] "u" wiP "COMPLETED" .completed none
    (by decide) rfl (by decide)
  have h2 := C3_transaction_lock [("u", wiP)] "u" wiP "COMPLETED" .completed
    (some "WRONG") (by decide) rfl (by decide)
  exact ⟨h1.2.1 (Or.inl rfl) rfl, h2.2.2.1 (Or.inl rfl) rfl (by decide)⟩

/-- C1 (counterexample): in the offline-queueing scenario the claim fails —
AE6 holds a non-suspended GLOBAL subscription and is in the fan-out union
for the newly created work item W8, has no open channel, yet
`_send_notification` neither delivers the event (the send returns false)
nor appends it to AE6's Pending-Event Queue: the pending queue is left
empty, so the event is lost for AE6. -/
theorem C1_counterexample :
    "AE6" ∈ fanoutUnion (fun _ _ => false) st6 "W8" ∧
    suspendedSkip st6 "AE6" = false ∧
    st6.connections = [] ∧
    (sendNotification (fun _ _ => false) st6 "W8" 7).1.pending = [("AE6", [])] ∧
    (sendNotification (fun _ _ => false) st6 "W8" 7).2 = [] := by
  decide

/-- C1 (amended): for every event handed to the fan-out, for every
subscriber in the affected union whose first stored subscription is not
suspended: the event is sent to the subscriber iff a push channel is open
for it; otherwise the event is dropped — `_send_notification` never
touches the Pending-Event Queue (and never touches the channel table), so
a subscriber who subscribes (e.g. GLOBAL) while offline does not receive
events for work items created during the offline period; only the
snapshot queued at subscribe time by `queue_state_reports` is drained on
connect. -/
theorem C1_fanout_never_queues (matchQ : List (String × String) → String → Bool)
    (st : NotifState) (uid : String) (ev : Event) :
    (sendNotification matchQ st uid ev).1.pending = st.pending ∧
    (sendNotification matchQ st uid ev).1.connections = st.connections ∧
    ∀ sid, sid ∈ fanoutUnion matchQ st uid → suspendedSkip st sid = false →
      (sid ∈ (sendNotification matchQ st uid ev).2 ↔ sid ∈ st.connections) := by
  refine ⟨rfl, rfl, ?_⟩
  intro sid hmem hskip
  show sid ∈ (fanoutUnion matchQ st uid).filter
      (fun s => !(suspendedSkip st s) && st.connections.contains s) ↔
    sid ∈ st.connections
  rw [List.mem_filter]
  constructor
  · intro h
    have := h.2
    simp only [hskip, Bool.not_false, Bool.true_and] at this
    exact List.mem_of_elem_eq_true this
  · intro h
    refine ⟨hmem, ?_⟩
    simp only [hskip, Bool.not_false, Bool.true_and]
    exact List.elem_eq_true_of_mem h

/-- C1 (witness): the amended statement applied to the same scenario with
AE6's channel open — the pending queue is untouched and the event is
delivered to AE6. -/
theorem C1_witness :
    (sendNotification (fun _ _ => false) st7 "W8" 7).1.pending = st7.pending ∧
    "AE6" ∈ (sendNotification (fun _ _ => false) st7 "W8" 7).2 := by
  have h := C1_fanout_never_queues (fun _ _ => false) st7 "W8" 7
  refine ⟨h.1, ?_⟩
  exact (h.2.2 "AE6" (by decide) (by decide)).2 (by decide)

/-- C10: when the notified work-item UID has an entry in the connection
manager's target→subscribers map, `_send_notification` mutates that stored
set in place (because `get_subscribers` returns the live set, not a copy):
afterwards the entry for the UID is the full fan-out union, so every
registered GLOBAL subscriber — in particular every currently connected one
— and every filter-matching subscriber is permanently recorded as a direct
subscriber of that UID; every other registry entry is unchanged, and when
the UID has no entry the registry is unchanged entirely. -/
theorem C10_registry_mutated_in_place
    (matchQ : List (String × String) → String → Bool)
    (st : NotifState) (uid : String) (ev : Event) :
    ((lookupReg st.registry uid).isSome →
      lookupReg (sendNotification matchQ st uid ev).1.registry uid =
        some (fanoutUnion matchQ st uid) ∧
      (∀ sid, sid ∈ (lookupReg st.registry GLOBAL_UID).getD [] →
        sid ∈ (lookupReg (sendNotification matchQ st uid ev).1.registry uid).getD []) ∧
      (∀ sid, sid ∈ matchOnFilter matchQ st
          ((lookupReg st.registry FILTERED_UID).getD []) uid →
        sid ∈ (lookupReg (sendNotification matchQ st uid ev).1.registry uid).getD []) ∧
      (∀ sid, sid ∈ (lookupReg st.registry uid).getD [] →
        sid ∈ (lookupReg (sendNotification matchQ st uid ev).1.registry uid).getD [])) ∧
    (∀ v, v ≠ uid →
      lookupReg (sendNotification matchQ st uid ev).1.registry v =
        lookupReg st.registry v) ∧
    (lookupReg st.registry uid = none →
      (sendNotification matchQ st uid ev).1.registry = st.registry) := by
  refine ⟨?_, ?_, ?_⟩
  · intro hsome
    have hreg : (sendNotification matchQ st uid ev).1.registry =
        updateReg st.registry uid (fanoutUnion matchQ st uid) := by
      show (if (lookupReg st.registry uid).isSome then
          updateReg st.registry uid (fanoutUnion matchQ st uid)
        else st.registry) = _
      rw [if_pos hsome]
    have hlk : lookupReg (sendNotification matchQ st uid ev).1.registry uid =
        some (fanoutUnion matchQ st uid) := by
      rw [hreg, lookupReg_updateReg]
      simp
    refine ⟨hlk, ?_, ?_, ?_⟩
    · intro sid hsid
      rw [hlk]
      show sid ∈ fanoutUnion matchQ st uid
      exact mem_setUnionStr_left _ _ _ (mem_setUnionStr_right _ _ _ hsid)
    · intro sid hsid
      rw [hlk]
      exact mem_setUnionStr_right _ _ _ hsid
    · intro sid hsid
      rw [hlk]
      exact mem_setUnionStr_left _ _ _ (mem_setUnionStr_left _ _ _ hsid)
  · intro v hv
    show lookupReg (if (lookupReg st.registry uid).isSome then
        updateReg st.registry uid (fanoutUnion matchQ st uid)
      else st.registry) v = lookupReg st.registry v
    by_cases hsome : (lookupReg st.registry uid).isSome
    · rw [if_pos hsome, lookupReg_updateReg, if_neg hv]
    · rw [if_neg hsome]
  · intro hnone
    show (if (lookupReg st.registry uid).isSome then
        updateReg st.registry uid (fanoutUnion matchQ st uid)
      else st.registry) = st.registry
    rw [if_neg (by rw [hnone]; decide)]

/-- C10 (witness): in the concrete state `st8` (W9 has a registry entry,
AE2 is a connected global subscriber), after one notification for W9 the
registry entry for W9 contains AE2 while the GLOBAL entry is unchanged. -/
theorem C10_witness :
    "AE2" ∈ (lookupReg (sendNotification (fun _ _ => false) st8 "W9" 3).1.registry
      "W9").getD [] ∧
    lookupReg (sendNotification (fun _ _ => false) st8 "W9" 3).1.registry GLOBAL_UID =
      some ["AE2"] := by
  have h := C10_registry_mutated_in_place (fun _ _ => false) st8 "W9" 3
  refine ⟨(h.1 (by decide)).2.1 "AE2" (by decide), ?_⟩
  rw [h.2.1 GLOBAL_UID (by decide)]
  decide

/-- C9 (counterexample): the query value `"-"` is a DA/TM/DT value that is
neither empty nor `"*"` and contains `"-"`, with both range sides empty;
under the claim's range reading (both ends absent, always satisfied) every
parseable record matches, but `match_datetime "-" "20230101"` returns
false: with both sides unparseable the code falls through to the
timestamp-equality comparison, where the stripped query parses as
1900-01-01 and differs from the record. -/
theorem C9_counterexample :
    splitOnChar '-' "-".data = [[], []] ∧
    claimRangeMatch [] [] "20230101".data = true ∧
    matchDatetime "-" "20230101" = false := by
  decide

/-- C9 (amended): for every DA/TM/DT query value that is neither empty nor
`"*"`, contains no `"*"` or `"?"` wildcard, and splits on `"-"` into
exactly two sides of which at least one parses to a timestamp, the value
is interpreted as a range `start-end`: the record matches iff
`start ≤ record ≤ end` after parsing both sides and the record, where a
side that is empty (or unparseable) is always satisfied and an
unparseable record never matches.  (A value containing a wildcard is
handled by the regex rule even when it contains `"-"`; when both sides
are empty or unparseable the code falls through to timestamp-equality
comparison — see the counterexample.) -/
theorem C9_range_semantics (q r : String) (s e : List Char)
    (hne : q.data ≠ []) (hstar : q.data ≠ ['*'])
    (hw1 : containsChar '*' q.data = false)
    (hw2 : containsChar '?' q.data = false)
    (hsplit : splitOnChar '-' q.data = [s, e])
    (hside : (parseDicomDate s).isSome ∨ (parseDicomDate e).isSome) :
    matchDatetime q r = claimRangeMatch s e r.data := by
  have hcont := contains_of_splitOnChar_two '-' q.data s e hsplit
  unfold matchDatetime matchDatetimeL claimRangeMatch
  rw [if_neg (show ¬ (q.data = [] ∨ q.data = ['*']) from by
    rintro (h | h)
    · exact hne h
    · exact hstar h)]
  rw [if_neg (show ¬ (containsChar '*' q.data = true ∨ containsChar '?' q.data = true)
      from by
    rintro (h | h)
    · rw [hw1] at h; cases h
    · rw [hw2] at h; cases h)]
  rw [if_pos hcont]
  simp only [hsplit]
  cases hr : parseDicomDate r.data with
  | none => simp [hr]
  | some d =>
    cases hs : parseDicomDate s with
    | none =>
      cases he : parseDicomDate e with
      | none =>
        rcases hside with h | h
        · rw [hs] at h; cases h
        · rw [he] at h; cases h
      | some b => simp [hr, hs, he]
    | some a =>
      cases he : parseDicomDate e with
      | none => simp [hr, hs, he]
      | some b => simp [hr, hs, he]

/-- C9 (witness): the amended statement at a concrete range query, whose
value also evaluates to a match. -/
theorem C9_witness :
    matchDatetime "20230101-20231231" "20230615" =
      claimRangeMatch "20230101".data "20231231".data "20230615".data ∧
    matchDatetime "20230101-20231231" "20230615" = true := by
  constructor
  · exact C9_range_semantics "20230101-20231231" "20230615" "20230101".data
      "20231231".data (by decide) (by decide) (by decide) (by decide) (by decide)
      (Or.inl (by decide))
  · decide

end PyUpsRs
